import Mathlib

/-!
Verification development for a role-based timesheet tracker (src/app.py).

The program keeps three SQLite tables (users, project_codes, timesheets) and
exposes, through two dashboards, a fixed set of parameterized SQL statements:
insert / update / delete / select on timesheets, approve / reject / resubmit
status updates, and a name+role identity lookup.  We embed the store as Lean
lists of rows, each SQL statement as a function on those lists, and the
dashboard-level behavior (which rows a button can act on) as a step relation.
Hours are REAL in the schema; we model them as rationals.  A statement that can
hit the CHECK constraint of the timesheets table (hours >= 0) returns an
Option, with none for the aborted statement.
-/

namespace Timesheets

/-- Role of a user row; the users table has the role CHECK constraint (role is user or manager). -/
inductive Role where
  | user
  | manager
deriving DecidableEq

/-- A row of the users table: id INTEGER PRIMARY KEY, username TEXT UNIQUE, role. -/
structure User where
  id : Nat
  username : String
  role : Role
deriving DecidableEq

/-- A row of the project_codes table: id, code TEXT UNIQUE, description TEXT. -/
structure ProjectCode where
  id : Nat
  code : String
  description : Option String
deriving DecidableEq

/-- Timesheet status; the status CHECK constraint (pending, approved or rejected). -/
inductive Status where
  | pending
  | approved
  | rejected
deriving DecidableEq

/-- A row of the timesheets table.  comments is nullable; every other column is
NOT NULL. -/
structure Entry where
  id : Nat
  user_id : Nat
  project_code_id : Nat
  date : String
  hours : ℚ
  status : Status
  comments : Option String
deriving DecidableEq

/-- authenticate(username, role): SELECT id FROM users WHERE username = ? AND
role = ?, returning the id of the first row, or None when the result set is empty. -/
def authenticate (users : List User) (name : String) (role : Role) : Option Nat :=
  (users.find? fun u => decide (u.username = name ∧ u.role = role)).map User.id

/-- The id SQLite assigns to a fresh row of a rowid table: one more than the
largest id currently present. -/
def nextId (db : List Entry) : Nat :=
  (db.map Entry.id).foldr max 0 + 1

/-- The row the create statement builds: the given owner, project code, date
and hours, pending status, comments NULL, and a fresh id. -/
def newEntry (db : List Entry) (uid pcid : Nat) (date : String) (hours : ℚ) : Entry :=
  { id := nextId db, user_id := uid, project_code_id := pcid, date := date,
    hours := hours, status := Status.pending, comments := none }

/-- INSERT INTO timesheets (user_id, project_code_id, date, hours, status)
VALUES (?, ?, ?, ?, pending).  comments is omitted, hence NULL.  The CHECK
constraint hours >= 0 aborts the statement for negative hours; the schema has
no upper bound on hours. -/
def insertTimesheet (db : List Entry) (uid pcid : Nat) (date : String) (hours : ℚ) :
    Option (List Entry) :=
  if hours < 0 then none
  else some (db ++ [newEntry db uid pcid date hours])

/-- Effect of the modify statement of the owner on one row. -/
def modifyRow (tid uid pcid : Nat) (date : String) (hours : ℚ) (e : Entry) : Entry :=
  if e.id = tid ∧ e.user_id = uid then
    { e with project_code_id := pcid, date := date, hours := hours }
  else e

/-- UPDATE timesheets SET project_code_id = ?, date = ?, hours = ?
WHERE id = ? AND user_id = ?.  Aborts on the hours >= 0 CHECK only when a row
actually matches the WHERE clause. -/
def updateEntry (db : List Entry) (tid uid pcid : Nat) (date : String) (hours : ℚ) :
    Option (List Entry) :=
  if hours < 0 ∧ (db.any fun e => decide (e.id = tid ∧ e.user_id = uid)) = true then none
  else some (db.map (modifyRow tid uid pcid date hours))

/-- DELETE FROM timesheets WHERE id = ? AND user_id = ?. -/
def deleteEntry (db : List Entry) (tid uid : Nat) : List Entry :=
  db.filter fun e => decide (¬(e.id = tid ∧ e.user_id = uid))

/-- Effect of the approve statement of the manager on one row. -/
def approveRow (tid : Nat) (c : String) (e : Entry) : Entry :=
  if e.id = tid then { e with status := Status.approved, comments := some c } else e

/-- UPDATE timesheets SET status = "approved", comments = ? WHERE id = ?. -/
def approveEntry (db : List Entry) (tid : Nat) (c : String) : List Entry :=
  db.map (approveRow tid c)

/-- Effect of the reject statement of the manager on one row. -/
def rejectRow (tid : Nat) (c : String) (e : Entry) : Entry :=
  if e.id = tid then { e with status := Status.rejected, comments := some c } else e

/-- UPDATE timesheets SET status = "rejected", comments = ? WHERE id = ?. -/
def rejectEntry (db : List Entry) (tid : Nat) (c : String) : List Entry :=
  db.map (rejectRow tid c)

/-- Effect of the resubmit statement on one row: only hours and status change. -/
def resubmitRow (tid : Nat) (hours : ℚ) (e : Entry) : Entry :=
  if e.id = tid then { e with hours := hours, status := Status.pending } else e

/-- UPDATE timesheets SET hours = ?, status = "pending" WHERE id = ?.  The
WHERE clause mentions only the id: no user_id and no status condition. -/
def resubmitEntry (db : List Entry) (tid : Nat) (hours : ℚ) : Option (List Entry) :=
  if hours < 0 ∧ (db.any fun e => decide (e.id = tid)) = true then none
  else some (db.map (resubmitRow tid hours))

/-- A listEntries filter: by owner, by status, both, or neither.  The source
uses WHERE user_id = ? on the user dashboard and WHERE status = "pending" on
the manager dashboard. -/
structure EntryFilter where
  ownerId : Option Nat
  status : Option Status

/-- Whether a row satisfies the WHERE clause of the filter. -/
def matchesFilter (f : EntryFilter) (e : Entry) : Bool :=
  (match f.ownerId with
   | some uid => decide (e.user_id = uid)
   | none => true)
  && (match f.status with
      | some s => decide (e.status = s)
      | none => true)

/-- SELECT * FROM timesheets WHERE ...: rows are returned in table order,
which for these rowid tables is insertion order. -/
def listEntries (db : List Entry) (f : EntryFilter) : List Entry :=
  db.filter (matchesFilter f)

/-- The whole SQLite file: which of the three tables exist, and their rows. -/
structure Store where
  hasUsers : Bool
  hasProjectCodes : Bool
  hasTimesheets : Bool
  users : List User
  projectCodes : List ProjectCode
  timesheets : List Entry
deriving DecidableEq

/-- init_db(): three CREATE TABLE IF NOT EXISTS statements.  A table that
already exists is left alone, rows included; a missing table is created
empty. -/
def init_db (s : Store) : Store :=
  { hasUsers := true
    hasProjectCodes := true
    hasTimesheets := true
    users := if s.hasUsers then s.users else []
    projectCodes := if s.hasProjectCodes then s.projectCodes else []
    timesheets := if s.hasTimesheets then s.timesheets else [] }

/-- The operations the two dashboards can fire at the timesheets table. -/
inductive Op where
  | create (uid pcid : Nat) (date : String) (hours : ℚ)
  | modify (tid uid pcid : Nat) (date : String) (hours : ℚ)
  | delete (tid uid : Nat)
  | approve (tid : Nat) (comments : String)
  | reject (tid : Nat) (comments : String)
  | resubmit (tid uid : Nat) (hours : ℚ)

/-- One dashboard action, with exactly the guards the UI imposes: the hours
number inputs are clamped to [0, 24]; an approve or reject button exists only
for a row in the pending listing; a resubmit button exists only for a row in
the rejected listing of the caller.  Modify and delete take a typed-in id and
are guarded only by the WHERE clause of the statement itself. -/
inductive Step : List Entry → Op → List Entry → Prop where
  | create {db db' : List Entry} {uid pcid : Nat} {date : String} {h : ℚ}
      (h0 : 0 ≤ h) (h24 : h ≤ 24)
      (heq : insertTimesheet db uid pcid date h = some db') :
      Step db (Op.create uid pcid date h) db'
  | modify {db db' : List Entry} {tid uid pcid : Nat} {date : String} {h : ℚ}
      (h0 : 0 ≤ h) (h24 : h ≤ 24)
      (heq : updateEntry db tid uid pcid date h = some db') :
      Step db (Op.modify tid uid pcid date h) db'
  | delete {db : List Entry} {tid uid : Nat} :
      Step db (Op.delete tid uid) (deleteEntry db tid uid)
  | approve {db : List Entry} {tid : Nat} {c : String}
      (hl : ∃ e ∈ listEntries db ⟨none, some Status.pending⟩, e.id = tid) :
      Step db (Op.approve tid c) (approveEntry db tid c)
  | reject {db : List Entry} {tid : Nat} {c : String}
      (hl : ∃ e ∈ listEntries db ⟨none, some Status.pending⟩, e.id = tid) :
      Step db (Op.reject tid c) (rejectEntry db tid c)
  | resubmit {db db' : List Entry} {tid uid : Nat} {h : ℚ}
      (hl : ∃ e ∈ listEntries db ⟨some uid, some Status.rejected⟩, e.id = tid)
      (h0 : 0 ≤ h) (h24 : h ≤ 24)
      (heq : resubmitEntry db tid h = some db') :
      Step db (Op.resubmit tid uid h) db'

/-- Timesheet stores reachable through the dashboards, starting from the empty
table init_db creates. -/
inductive Reach : List Entry → Prop where
  | empty : Reach []
  | step {db db' : List Entry} {op : Op} :
      Reach db → Step db op db' → Reach db'

/-- The status transition table: stay put, pending to approved or rejected by
a manager, rejected back to pending by resubmission. -/
def statusTransOk (s s' : Status) : Prop :=
  s = s' ∨ (s = Status.pending ∧ (s' = Status.approved ∨ s' = Status.rejected)) ∨
    (s = Status.rejected ∧ s' = Status.pending)

/-- The timesheet row of the basic scenario: alice (user 1) books 8 hours. -/
def entry1 : Entry :=
  { id := 1, user_id := 1, project_code_id := 1, date := "2024-01-05", hours := 8,
    status := Status.pending, comments := none }

/-- The table after the first create by alice. -/
def db1 : List Entry := [entry1]

/-- A second row created after the first. -/
def entry2 : Entry :=
  { id := 2, user_id := 1, project_code_id := 1, date := "2024-01-06", hours := 4,
    status := Status.pending, comments := none }

/-- The table after two creates. -/
def db2 : List Entry := [entry1, entry2]

/-- A rejected row carrying a manager comment. -/
def entryR : Entry :=
  { id := 1, user_id := 1, project_code_id := 2, date := "2024-01-05", hours := 8,
    status := Status.rejected, comments := some ("missing approval") }

/-- A one-row table holding the rejected entry. -/
def dbR : List Entry := [entryR]

/-- A row owned by user 5, used against a caller claiming to be user 6. -/
def entry4 : Entry :=
  { id := 1, user_id := 5, project_code_id := 1, date := "2024-01-05", hours := 8,
    status := Status.pending, comments := none }

/-- A one-row table for the owner-mismatch scenario. -/
def db4 : List Entry := [entry4]

/-- An approved row owned by user 7. -/
def entryA : Entry :=
  { id := 1, user_id := 7, project_code_id := 2, date := "2024-02-01", hours := 8,
    status := Status.approved, comments := some ("ok") }

/-- A one-row table holding the approved entry. -/
def dbA : List Entry := [entryA]

/-- The image of entry1 under an approve with comment "ok". -/
def entryApproved : Entry :=
  { id := 1, user_id := 1, project_code_id := 1, date := "2024-01-05", hours := 8,
    status := Status.approved, comments := some ("ok") }

/-- The row an out-of-range insert leaves behind: 25 hours, beyond the spec
range but accepted by the schema. -/
def entry25 : Entry :=
  { id := 1, user_id := 1, project_code_id := 1, date := "2024-01-05", hours := 25,
    status := Status.pending, comments := none }

/-- A two-user table: one contributor, one manager. -/
def users5 : List User :=
  [{ id := 1, username := "alice", role := Role.user },
   { id := 2, username := "bob", role := Role.manager }]

lemma map_eq_self_of {α : Type _} {f : α → α} :
    ∀ {l : List α}, (∀ a ∈ l, f a = a) → l.map f = l := by
  intro l
  induction l with
  | nil => intro _; rfl
  | cons a t ih =>
    intro h
    have h1 : f a = a := h a (List.mem_cons_self a t)
    have h2 := ih fun b hb => h b (List.mem_cons_of_mem a hb)
    simp [h1, h2]

lemma filter_eq_self_of {α : Type _} {p : α → Bool} :
    ∀ {l : List α}, (∀ a ∈ l, p a = true) → l.filter p = l := by
  intro l
  induction l with
  | nil => intro _; rfl
  | cons a t ih =>
    intro h
    have h1 : p a = true := h a (List.mem_cons_self a t)
    have h2 := ih fun b hb => h b (List.mem_cons_of_mem a hb)
    simp [List.filter_cons, h1, h2]

lemma le_foldr_max : ∀ {l : List Nat} {x : Nat}, x ∈ l → x ≤ l.foldr max 0 := by
  intro l
  induction l with
  | nil => intro x hx; cases hx
  | cons a t ih =>
    intro x hx
    rcases List.mem_cons.mp hx with rfl | hx'
    · exact le_max_left _ _
    · exact le_trans (ih hx') (le_max_right _ _)

/-- Every id already in the table is strictly below the id a fresh insert
gets. -/
lemma id_lt_nextId {db : List Entry} {e : Entry} (he : e ∈ db) : e.id < nextId db := by
  have hle : e.id ≤ (db.map Entry.id).foldr max 0 :=
    le_foldr_max (List.mem_map_of_mem Entry.id he)
  unfold nextId
  omega

/-- In a table whose ids strictly increase along the list, the id determines
the row. -/
lemma mem_eq_of_pairwise_lt :
    ∀ {db : List Entry}, db.Pairwise (fun a b => a.id < b.id) →
      ∀ {e₁ e₂ : Entry}, e₁ ∈ db → e₂ ∈ db → e₁.id = e₂.id → e₁ = e₂ := by
  intro db
  induction db with
  | nil => intro _ e₁ e₂ h1; cases h1
  | cons v vs ih =>
    intro hpw e₁ e₂ h1 h2 hid
    rw [List.pairwise_cons] at hpw
    rcases List.mem_cons.mp h1 with rfl | h1'
    · rcases List.mem_cons.mp h2 with rfl | h2'
      · rfl
      · exact absurd hid (Nat.ne_of_lt (hpw.1 e₂ h2'))
    · rcases List.mem_cons.mp h2 with rfl | h2'
      · exact absurd hid.symm (Nat.ne_of_lt (hpw.1 e₁ h1'))
      · exact ih hpw.2 h1' h2' hid

lemma modifyRow_id (tid uid pcid : Nat) (date : String) (h : ℚ) (e : Entry) :
    (modifyRow tid uid pcid date h e).id = e.id := by
  unfold modifyRow; split <;> rfl

lemma modifyRow_status (tid uid pcid : Nat) (date : String) (h : ℚ) (e : Entry) :
    (modifyRow tid uid pcid date h e).status = e.status := by
  unfold modifyRow; split <;> rfl

lemma approveRow_id (tid : Nat) (c : String) (e : Entry) :
    (approveRow tid c e).id = e.id := by
  unfold approveRow; split <;> rfl

lemma rejectRow_id (tid : Nat) (c : String) (e : Entry) :
    (rejectRow tid c e).id = e.id := by
  unfold rejectRow; split <;> rfl

lemma resubmitRow_id (tid : Nat) (h : ℚ) (e : Entry) :
    (resubmitRow tid h e).id = e.id := by
  unfold resubmitRow; split <;> rfl

/-- Inverting a successful insert: the hours were non-negative and the result
is the old table with the fresh row appended. -/
lemma insertTimesheet_eq_some {db db' : List Entry} {uid pcid : Nat} {date : String} {h : ℚ}
    (heq : insertTimesheet db uid pcid date h = some db') :
    0 ≤ h ∧ db' = db ++ [newEntry db uid pcid date h] := by
  unfold insertTimesheet at heq
  split at heq
  · exact absurd heq (by simp)
  · rename_i hneg
    exact ⟨not_lt.mp hneg, (Option.some.inj heq).symm⟩

/-- With non-negative hours the update statement of the owner cannot hit the CHECK
constraint. -/
lemma updateEntry_eq_some_of_nonneg {db : List Entry} {tid uid pcid : Nat}
    {date : String} {h : ℚ} (h0 : 0 ≤ h) :
    updateEntry db tid uid pcid date h = some (db.map (modifyRow tid uid pcid date h)) := by
  unfold updateEntry
  exact if_neg fun hc => absurd hc.1 (not_lt.mpr h0)

/-- With non-negative hours the resubmit statement cannot hit the CHECK
constraint. -/
lemma resubmitEntry_eq_some_of_nonneg {db : List Entry} {tid : Nat} {h : ℚ} (h0 : 0 ≤ h) :
    resubmitEntry db tid h = some (db.map (resubmitRow tid h)) := by
  unfold resubmitEntry
  exact if_neg fun hc => absurd hc.1 (not_lt.mpr h0)

/-- A row shown by the review listing of the manager is a pending row of the table. -/
lemma pending_guard {db : List Entry} {tid : Nat}
    (hl : ∃ e ∈ listEntries db ⟨none, some Status.pending⟩, e.id = tid) :
    ∃ e ∈ db, e.id = tid ∧ e.status = Status.pending := by
  obtain ⟨e, he, hid⟩ := hl
  simp only [listEntries, List.mem_filter] at he
  refine ⟨e, he.1, hid, ?_⟩
  simpa [matchesFilter] using he.2

/-- A row shown by the rejected listing of the owner belongs to that owner and is
rejected. -/
lemma rejected_guard {db : List Entry} {tid uid : Nat}
    (hl : ∃ e ∈ listEntries db ⟨some uid, some Status.rejected⟩, e.id = tid) :
    ∃ e ∈ db, e.id = tid ∧ e.user_id = uid ∧ e.status = Status.rejected := by
  obtain ⟨e, he, hid⟩ := hl
  simp only [listEntries, List.mem_filter] at he
  have h2 := he.2
  simp [matchesFilter] at h2
  exact ⟨e, he.1, hid, h2.1, h2.2⟩

/-- Row maps that keep ids keep the strictly-increasing-id shape of the
table. -/
lemma pairwise_map_id {db : List Entry} {f : Entry → Entry}
    (hf : ∀ e, (f e).id = e.id)
    (hpw : db.Pairwise fun a b => a.id < b.id) :
    (db.map f).Pairwise fun a b => a.id < b.id := by
  rw [List.pairwise_map]
  refine hpw.imp ?_
  intro a b hab
  rw [hf a, hf b]
  exact hab

/-- Invariant: along any dashboard run the timesheets table is strictly
increasing in id, i.e. rows sit in insertion order and ids are unique. -/
lemma reach_pairwise {db : List Entry} (hr : Reach db) :
    db.Pairwise fun a b => a.id < b.id := by
  induction hr with
  | empty => exact List.Pairwise.nil
  | step hr hs ih =>
    cases hs with
    | create h0 h24 heq =>
      obtain ⟨-, rfl⟩ := insertTimesheet_eq_some heq
      rw [List.pairwise_append]
      refine ⟨ih, by simp, ?_⟩
      intro a ha b hb
      rw [List.mem_singleton] at hb
      subst hb
      exact id_lt_nextId ha
    | modify h0 h24 heq =>
      rw [updateEntry_eq_some_of_nonneg h0] at heq
      obtain rfl := Option.some.inj heq
      exact pairwise_map_id (modifyRow_id _ _ _ _ _) ih
    | delete => exact List.Pairwise.sublist (List.filter_sublist _) ih
    | approve hl => exact pairwise_map_id (approveRow_id _ _) ih
    | reject hl => exact pairwise_map_id (rejectRow_id _ _) ih
    | resubmit hl h0 h24 heq =>
      rw [resubmitEntry_eq_some_of_nonneg h0] at heq
      obtain rfl := Option.some.inj heq
      exact pairwise_map_id (resubmitRow_id _ _) ih

/-- Invariant: every hours value a dashboard run leaves in the table is
between 0 and 24 — the hours inputs are clamped to that range. -/
lemma reach_hours {db : List Entry} (hr : Reach db) :
    ∀ e ∈ db, 0 ≤ e.hours ∧ e.hours ≤ 24 := by
  induction hr with
  | empty => intro e he; cases he
  | step hr hs ih =>
    cases hs with
    | create h0 h24 heq =>
      obtain ⟨-, rfl⟩ := insertTimesheet_eq_some heq
      intro e he
      rcases List.mem_append.mp he with h' | h'
      · exact ih e h'
      · rw [List.mem_singleton] at h'
        subst h'
        exact ⟨h0, h24⟩
    | modify h0 h24 heq =>
      rw [updateEntry_eq_some_of_nonneg h0] at heq
      obtain rfl := Option.some.inj heq
      intro e he
      obtain ⟨e₀, he₀, rfl⟩ := List.mem_map.mp he
      unfold modifyRow
      split
      · exact ⟨h0, h24⟩
      · exact ih e₀ he₀
    | delete =>
      intro e he
      exact ih e (List.mem_filter.mp he).1
    | approve hl =>
      intro e he
      simp only [approveEntry] at he
      obtain ⟨e₀, he₀, rfl⟩ := List.mem_map.mp he
      unfold approveRow
      split <;> exact ih e₀ he₀
    | reject hl =>
      intro e he
      simp only [rejectEntry] at he
      obtain ⟨e₀, he₀, rfl⟩ := List.mem_map.mp he
      unfold rejectRow
      split <;> exact ih e₀ he₀
    | resubmit hl h0 h24 heq =>
      rw [resubmitEntry_eq_some_of_nonneg h0] at heq
      obtain rfl := Option.some.inj heq
      intro e he
      obtain ⟨e₀, he₀, rfl⟩ := List.mem_map.mp he
      unfold resubmitRow
      split
      · exact ⟨h0, h24⟩
      · exact ih e₀ he₀

/-- One dashboard action moves the status of each surviving row along the
transition table only. -/
lemma step_status {db db' : List Entry} {op : Op}
    (hpw : db.Pairwise fun a b => a.id < b.id) (hs : Step db op db') :
    ∀ e ∈ db, ∀ e' ∈ db', e'.id = e.id → statusTransOk e.status e'.status := by
  intro e he e' he' hid
  unfold statusTransOk
  cases hs with
  | create h0 h24 heq =>
    obtain ⟨-, rfl⟩ := insertTimesheet_eq_some heq
    rcases List.mem_append.mp he' with h' | h'
    · obtain rfl := mem_eq_of_pairwise_lt hpw h' he hid
      exact Or.inl rfl
    · rw [List.mem_singleton] at h'
      subst h'
      have hlt := id_lt_nextId he
      have hne : nextId db = e.id := hid
      omega
  | modify h0 h24 heq =>
    rw [updateEntry_eq_some_of_nonneg h0] at heq
    obtain rfl := Option.some.inj heq
    obtain ⟨e₀, he₀, rfl⟩ := List.mem_map.mp he'
    have hid0 : e₀.id = e.id := by rw [← modifyRow_id _ _ _ _ _ e₀]; exact hid
    obtain rfl := mem_eq_of_pairwise_lt hpw he₀ he hid0
    exact Or.inl (modifyRow_status _ _ _ _ _ _).symm
  | delete =>
    have h' : e' ∈ db := (List.mem_filter.mp he').1
    obtain rfl := mem_eq_of_pairwise_lt hpw h' he hid
    exact Or.inl rfl
  | approve hl =>
    obtain ⟨p, hp, hpid, hpst⟩ := pending_guard hl
    simp only [approveEntry] at he'
    obtain ⟨e₀, he₀, rfl⟩ := List.mem_map.mp he'
    have hid0 : e₀.id = e.id := by rw [← approveRow_id _ _ e₀]; exact hid
    obtain rfl := mem_eq_of_pairwise_lt hpw he₀ he hid0
    unfold approveRow
    split
    · rename_i hc
      obtain rfl := mem_eq_of_pairwise_lt hpw hp he (by rw [hpid, hc])
      exact Or.inr (Or.inl ⟨hpst, Or.inl rfl⟩)
    · exact Or.inl rfl
  | reject hl =>
    obtain ⟨p, hp, hpid, hpst⟩ := pending_guard hl
    simp only [rejectEntry] at he'
    obtain ⟨e₀, he₀, rfl⟩ := List.mem_map.mp he'
    have hid0 : e₀.id = e.id := by rw [← rejectRow_id _ _ e₀]; exact hid
    obtain rfl := mem_eq_of_pairwise_lt hpw he₀ he hid0
    unfold rejectRow
    split
    · rename_i hc
      obtain rfl := mem_eq_of_pairwise_lt hpw hp he (by rw [hpid, hc])
      exact Or.inr (Or.inl ⟨hpst, Or.inr rfl⟩)
    · exact Or.inl rfl
  | resubmit hl h0 h24 heq =>
    obtain ⟨p, hp, hpid, hpuid, hpst⟩ := rejected_guard hl
    rw [resubmitEntry_eq_some_of_nonneg h0] at heq
    obtain rfl := Option.some.inj heq
    obtain ⟨e₀, he₀, rfl⟩ := List.mem_map.mp he'
    have hid0 : e₀.id = e.id := by rw [← resubmitRow_id _ _ e₀]; exact hid
    obtain rfl := mem_eq_of_pairwise_lt hpw he₀ he hid0
    unfold resubmitRow
    split
    · rename_i hc
      obtain rfl := mem_eq_of_pairwise_lt hpw hp he (by rw [hpid, hc])
      exact Or.inr (Or.inr ⟨hpst, rfl⟩)
    · exact Or.inl rfl

/-- One dashboard action only ever introduces rows in the pending state: a
row of the new table whose id was absent from the old table came from the
create statement. -/
lemma step_fresh_pending {db db' : List Entry} {op : Op} (hs : Step db op db') :
    ∀ x ∈ db', (∀ y ∈ db, y.id ≠ x.id) → x.status = Status.pending := by
  intro x hx hfresh
  cases hs with
  | create h0 h24 heq =>
    obtain ⟨-, rfl⟩ := insertTimesheet_eq_some heq
    rcases List.mem_append.mp hx with h' | h'
    · exact absurd rfl (hfresh x h')
    · rw [List.mem_singleton] at h'
      subst h'
      rfl
  | modify h0 h24 heq =>
    rw [updateEntry_eq_some_of_nonneg h0] at heq
    obtain rfl := Option.some.inj heq
    obtain ⟨e₀, he₀, rfl⟩ := List.mem_map.mp hx
    exact absurd (modifyRow_id _ _ _ _ _ e₀).symm (hfresh e₀ he₀)
  | delete =>
    exact absurd rfl (hfresh x (List.mem_filter.mp hx).1)
  | approve hl =>
    simp only [approveEntry] at hx
    obtain ⟨e₀, he₀, rfl⟩ := List.mem_map.mp hx
    exact absurd (approveRow_id _ _ e₀).symm (hfresh e₀ he₀)
  | reject hl =>
    simp only [rejectEntry] at hx
    obtain ⟨e₀, he₀, rfl⟩ := List.mem_map.mp hx
    exact absurd (rejectRow_id _ _ e₀).symm (hfresh e₀ he₀)
  | resubmit hl h0 h24 heq =>
    rw [resubmitEntry_eq_some_of_nonneg h0] at heq
    obtain rfl := Option.some.inj heq
    obtain ⟨e₀, he₀, rfl⟩ := List.mem_map.mp hx
    exact absurd (resubmitRow_id _ _ e₀).symm (hfresh e₀ he₀)

/-- With unique usernames, the lookup returns the id of the matching row. -/
lemma authenticate_eq_some :
    ∀ {users : List User}, (users.Pairwise fun a b => a.username ≠ b.username) →
      ∀ {name : String} {role : Role} {u : User},
        u ∈ users → u.username = name → u.role = role →
        authenticate users name role = some u.id := by
  intro users
  induction users with
  | nil => intro _ _ _ _ hu; cases hu
  | cons v vs ih =>
    intro hpw name role u hu hname hrole
    rw [List.pairwise_cons] at hpw
    rcases List.mem_cons.mp hu with rfl | hu'
    · unfold authenticate
      simp [hname, hrole]
    · have hvne : v.username ≠ name := by
        have hne := hpw.1 u hu'
        rw [hname] at hne
        exact hne
      have hrec := ih hpw.2 hu' hname hrole
      unfold authenticate at hrec ⊢
      simpa [hvne] using hrec

/-- The first dashboard action of the scenario: alice creates an entry. -/
lemma step_create_db1 : Step [] (Op.create 1 1 "2024-01-05" 8) db1 :=
  Step.create (by decide) (by decide) (by decide)

/-- db1 is reachable. -/
lemma reach_db1 : Reach db1 := Reach.step Reach.empty step_create_db1

/-- A second create on top of db1. -/
lemma step_create_db2 : Step db1 (Op.create 1 1 "2024-01-06" 4) db2 :=
  Step.create (by decide) (by decide) (by decide)

/-- db2 is reachable. -/
lemma reach_db2 : Reach db2 := Reach.step reach_db1 step_create_db2

/-- The manager approves entry 1, listed as pending in db1. -/
lemma step_approve_db1 : Step db1 (Op.approve 1 "ok") (approveEntry db1 1 "ok") :=
  Step.approve (by decide)

/-- Claim C1 (amended).  Along dashboard-reachable runs every stored hours
value lies in [0, 24], because the hours inputs are clamped to that range; and
an insert with negative hours is aborted by the hours >= 0 CHECK, adding no
row.  The store itself has no upper CHECK on hours: the original claim that an
insert with hours above 24 fails is refuted separately. -/
theorem hours_range_c1 (db : List Entry) (uid pcid : Nat) (date : String) (h : ℚ) :
    (Reach db → ∀ e ∈ db, 0 ≤ e.hours ∧ e.hours ≤ 24) ∧
    (h < 0 → insertTimesheet db uid pcid date h = none) := by
  constructor
  · intro hr
    exact reach_hours hr
  · intro hneg
    unfold insertTimesheet
    exact if_pos hneg

theorem hours_range_c1_witness :
    (∀ e ∈ db1, 0 ≤ e.hours ∧ e.hours ≤ 24) ∧
    insertTimesheet db1 1 1 "2024-01-05" (-1) = none :=
  ⟨(hours_range_c1 db1 1 1 "2024-01-05" (-1)).1 reach_db1,
   (hours_range_c1 db1 1 1 "2024-01-05" (-1)).2 (by decide)⟩

/-- Claim C1 as stated is false on the code: the insert statement with 25
hours succeeds and leaves a row whose hours exceed 24, because the schema only
checks hours >= 0. -/
theorem hours_range_c1_counterexample :
    insertTimesheet [] 1 1 "2024-01-05" 25 = some [entry25] ∧
    ¬ (entry25.hours ≤ 24) := by
  decide

/-- Claim C2.  Along reachable dashboard runs, one action changes the status
of a surviving row only along the transition table (stay, pending to approved,
pending to rejected, rejected to pending); an approved row stays approved; and
any row the action introduces starts pending. -/
theorem status_transitions_c2 {db db' : List Entry} {op : Op}
    (hr : Reach db) (hs : Step db op db') :
    (∀ e ∈ db, ∀ e' ∈ db', e'.id = e.id →
       statusTransOk e.status e'.status ∧
       (e.status = Status.approved → e'.status = Status.approved)) ∧
    (∀ x ∈ db', (∀ y ∈ db, y.id ≠ x.id) → x.status = Status.pending) := by
  constructor
  · intro e he e' he' hid
    have ht := step_status (reach_pairwise hr) hs e he e' he' hid
    refine ⟨ht, ?_⟩
    intro happ
    unfold statusTransOk at ht
    rcases ht with h1 | h2 | h3
    · rw [← h1, happ]
    · rw [happ] at h2
      exact absurd h2.1 (by decide)
    · rw [happ] at h3
      exact absurd h3.1 (by decide)
  · exact step_fresh_pending hs

theorem status_transitions_c2_witness :
    (∀ e ∈ db1, ∀ e' ∈ approveEntry db1 1 "ok", e'.id = e.id →
       statusTransOk e.status e'.status ∧
       (e.status = Status.approved → e'.status = Status.approved)) ∧
    (∀ x ∈ approveEntry db1 1 "ok", (∀ y ∈ db1, y.id ≠ x.id) →
       x.status = Status.pending) :=
  status_transitions_c2 reach_db1 step_approve_db1

/-- Claim C3.  Resubmitting a rejected entry succeeds (for in-range hours),
sets its hours to the supplied value and its status to pending, and leaves its
date, project code, owner and stored manager comment unchanged; every other
row survives untouched. -/
theorem resubmit_frame_c3 (db : List Entry) (tid : Nat) (h : ℚ) (e : Entry)
    (he : e ∈ db) (hid : e.id = tid) (hst : e.status = Status.rejected) (h0 : 0 ≤ h) :
    ∃ db', resubmitEntry db tid h = some db' ∧
      (∃ e' ∈ db', e'.id = e.id ∧ e'.hours = h ∧ e'.status = Status.pending ∧
         e'.date = e.date ∧ e'.project_code_id = e.project_code_id ∧
         e'.comments = e.comments ∧ e'.user_id = e.user_id) ∧
      ∀ x ∈ db, x.id ≠ tid → x ∈ db' := by
  refine ⟨db.map (resubmitRow tid h), resubmitEntry_eq_some_of_nonneg h0, ?_, ?_⟩
  · refine ⟨resubmitRow tid h e, List.mem_map_of_mem _ he, ?_⟩
    unfold resubmitRow
    rw [if_pos hid]
    exact ⟨rfl, rfl, rfl, rfl, rfl, rfl, rfl⟩
  · intro x hx hxid
    have hxe : resubmitRow tid h x = x := by
      unfold resubmitRow
      exact if_neg fun hc => hxid hc
    rw [← hxe]
    exact List.mem_map_of_mem _ hx

theorem resubmit_frame_c3_witness :
    ∃ db', resubmitEntry dbR 1 6 = some db' ∧
      (∃ e' ∈ db', e'.id = entryR.id ∧ e'.hours = 6 ∧ e'.status = Status.pending ∧
         e'.date = entryR.date ∧ e'.project_code_id = entryR.project_code_id ∧
         e'.comments = entryR.comments ∧ e'.user_id = entryR.user_id) ∧
      ∀ x ∈ dbR, x.id ≠ 1 → x ∈ db' :=
  resubmit_frame_c3 dbR 1 6 entryR (by decide) (by decide) (by decide) (by decide)

/-- Claim C4.  When no row carries both the given id and the given owner, the
owner-scoped update and delete statements match zero rows and return the table
unchanged. -/
theorem owner_scope_c4 (db : List Entry) (tid uid pcid : Nat) (date : String) (h : ℚ)
    (hno : ∀ e ∈ db, ¬(e.id = tid ∧ e.user_id = uid)) :
    updateEntry db tid uid pcid date h = some db ∧ deleteEntry db tid uid = db := by
  constructor
  · have hcond : ¬(h < 0 ∧
        (db.any fun e => decide (e.id = tid ∧ e.user_id = uid)) = true) := by
      intro hc
      rw [List.any_eq_true] at hc
      obtain ⟨x, hx, hpx⟩ := hc.2
      exact hno x hx (by simpa using hpx)
    have hmap : db.map (modifyRow tid uid pcid date h) = db :=
      map_eq_self_of fun a ha => by
        unfold modifyRow
        exact if_neg (hno a ha)
    unfold updateEntry
    rw [if_neg hcond, hmap]
  · unfold deleteEntry
    apply filter_eq_self_of
    intro a ha
    simp only [decide_eq_true_eq]
    exact hno a ha

theorem owner_scope_c4_witness :
    updateEntry db4 1 6 3 "2024-01-09" 4 = some db4 ∧ deleteEntry db4 1 6 = db4 :=
  owner_scope_c4 db4 1 6 3 "2024-01-09" 4 (by decide)

/-- Claim C5.  With the unique-username constraint, the identity lookup
returns the id of the row matching both name and role when one exists, None
when no row matches, and the same result on repeated calls over an unchanged
table. -/
theorem resolve_identity_c5 (users : List User) (name : String) (role : Role)
    (hpw : users.Pairwise fun a b => a.username ≠ b.username) :
    (∀ u ∈ users, u.username = name → u.role = role →
       authenticate users name role = some u.id) ∧
    ((∀ u ∈ users, ¬(u.username = name ∧ u.role = role)) →
       authenticate users name role = none) ∧
    authenticate users name role = authenticate users name role := by
  refine ⟨?_, ?_, rfl⟩
  · intro u hu hname hrole
    exact authenticate_eq_some hpw hu hname hrole
  · intro hno
    unfold authenticate
    have hfind : users.find? (fun u => decide (u.username = name ∧ u.role = role)) = none :=
      List.find?_eq_none.mpr fun x hx => by simpa using hno x hx
    rw [hfind]
    rfl

theorem resolve_identity_c5_witness :
    authenticate users5 ("alice") Role.user = some 1 ∧
    authenticate users5 ("carol") Role.user = none :=
  ⟨(resolve_identity_c5 users5 ("alice") Role.user (by decide)).1
      { id := 1, username := "alice", role := Role.user } (by decide) rfl rfl,
   (resolve_identity_c5 users5 ("carol") Role.user (by decide)).2.1 (by decide)⟩

/-- Claim C6.  The approve and reject statements keep every row's owner, date,
project code and hours; the targeted row gets the new status and comment, and
every other row is entirely unchanged.  Both statements keep the row count. -/
theorem review_frame_c6 (db : List Entry) (tid : Nat) (c : String) :
    (∀ e' ∈ approveEntry db tid c, ∃ e ∈ db,
       e'.id = e.id ∧ e'.user_id = e.user_id ∧ e'.date = e.date ∧
       e'.project_code_id = e.project_code_id ∧ e'.hours = e.hours ∧
       (e.id = tid → e'.status = Status.approved ∧ e'.comments = some c) ∧
       (e.id ≠ tid → e' = e)) ∧
    (∀ e' ∈ rejectEntry db tid c, ∃ e ∈ db,
       e'.id = e.id ∧ e'.user_id = e.user_id ∧ e'.date = e.date ∧
       e'.project_code_id = e.project_code_id ∧ e'.hours = e.hours ∧
       (e.id = tid → e'.status = Status.rejected ∧ e'.comments = some c) ∧
       (e.id ≠ tid → e' = e)) ∧
    (approveEntry db tid c).length = db.length ∧
    (rejectEntry db tid c).length = db.length := by
  refine ⟨?_, ?_, by simp [approveEntry], by simp [rejectEntry]⟩
  · intro e' he'
    simp only [approveEntry] at he'
    obtain ⟨e, he, rfl⟩ := List.mem_map.mp he'
    refine ⟨e, he, ?_⟩
    unfold approveRow
    split
    · rename_i hc
      exact ⟨rfl, rfl, rfl, rfl, rfl, fun _ => ⟨rfl, rfl⟩, fun hne => absurd hc hne⟩
    · rename_i hc
      exact ⟨rfl, rfl, rfl, rfl, rfl, fun heq => absurd heq hc, fun _ => rfl⟩
  · intro e' he'
    simp only [rejectEntry] at he'
    obtain ⟨e, he, rfl⟩ := List.mem_map.mp he'
    refine ⟨e, he, ?_⟩
    unfold rejectRow
    split
    · rename_i hc
      exact ⟨rfl, rfl, rfl, rfl, rfl, fun _ => ⟨rfl, rfl⟩, fun hne => absurd hc hne⟩
    · rename_i hc
      exact ⟨rfl, rfl, rfl, rfl, rfl, fun heq => absurd heq hc, fun _ => rfl⟩

theorem review_frame_c6_witness :
    ∃ e ∈ db1,
      entryApproved.id = e.id ∧ entryApproved.user_id = e.user_id ∧
      entryApproved.date = e.date ∧
      entryApproved.project_code_id = e.project_code_id ∧
      entryApproved.hours = e.hours ∧
      (e.id = 1 → entryApproved.status = Status.approved ∧
        entryApproved.comments = some ("ok")) ∧
      (e.id ≠ 1 → entryApproved = e) :=
  (review_frame_c6 db1 1 "ok").1 entryApproved (by decide)

/-- Claim C7.  For hours within [0, 24] the create statement appends exactly
one new row, with the given owner, project code, date and hours, pending
status, NULL comment, and an id no existing row carries. -/
theorem create_entry_c7 (db : List Entry) (uid pcid : Nat) (date : String) (h : ℚ)
    (h0 : 0 ≤ h) (h24 : h ≤ 24) :
    ∃ e : Entry, insertTimesheet db uid pcid date h = some (db ++ [e]) ∧
      e.status = Status.pending ∧ e.comments = none ∧ e.user_id = uid ∧
      e.project_code_id = pcid ∧ e.date = date ∧ e.hours = h ∧
      ∀ x ∈ db, x.id ≠ e.id := by
  refine ⟨newEntry db uid pcid date h, ?_, rfl, rfl, rfl, rfl, rfl, rfl, ?_⟩
  · unfold insertTimesheet
    exact if_neg (not_lt.mpr h0)
  · intro x hx
    exact Nat.ne_of_lt (id_lt_nextId hx)

theorem create_entry_c7_witness :
    ∃ e : Entry, insertTimesheet [] 1 2 "2024-01-05" 8 = some ([] ++ [e]) ∧
      e.status = Status.pending ∧ e.comments = none ∧ e.user_id = 1 ∧
      e.project_code_id = 2 ∧ e.date = "2024-01-05" ∧ e.hours = 8 ∧
      ∀ x ∈ ([] : List Entry), x.id ≠ e.id :=
  create_entry_c7 [] 1 2 "2024-01-05" 8 (by decide) (by decide)

/-- Claim C8.  The resubmit statement is guarded only by the id: against any
existing row with that id — whatever its status, approved included, and
whoever owns it — it sets the hours to the supplied value and the status to
pending, and leaves every other row in place.  The rejected-status and
ownership preconditions live only in which rows the dashboard lists. -/
theorem resubmit_unguarded_c8 (db : List Entry) (tid : Nat) (h : ℚ) (e : Entry)
    (he : e ∈ db) (hid : e.id = tid) (h0 : 0 ≤ h) :
    ∃ db', resubmitEntry db tid h = some db' ∧
      { e with hours := h, status := Status.pending } ∈ db' ∧
      ∀ x ∈ db, x.id ≠ tid → x ∈ db' := by
  refine ⟨db.map (resubmitRow tid h), resubmitEntry_eq_some_of_nonneg h0, ?_, ?_⟩
  · have hrow : resubmitRow tid h e = { e with hours := h, status := Status.pending } := by
      unfold resubmitRow
      rw [if_pos hid]
    rw [← hrow]
    exact List.mem_map_of_mem _ he
  · intro x hx hxid
    have hxe : resubmitRow tid h x = x := by
      unfold resubmitRow
      exact if_neg fun hc => hxid hc
    rw [← hxe]
    exact List.mem_map_of_mem _ hx

theorem resubmit_unguarded_c8_witness :
    ∃ db', resubmitEntry dbA 1 6 = some db' ∧
      { entryA with hours := 6, status := Status.pending } ∈ db' ∧
      ∀ x ∈ dbA, x.id ≠ 1 → x ∈ db' :=
  resubmit_unguarded_c8 dbA 1 6 entryA (by decide) (by decide) (by decide)

/-- Claim C9.  On any reachable table, every filtered listing comes back in
insertion order, its ids strictly ascending, and it holds exactly the rows
matching the filter. -/
theorem list_entries_c9 (db : List Entry) (f : EntryFilter) (hr : Reach db) :
    List.Pairwise (fun a b : Entry => a.id < b.id) (listEntries db f) ∧
    ∀ e : Entry, e ∈ listEntries db f ↔ e ∈ db ∧ matchesFilter f e = true := by
  constructor
  · exact List.Pairwise.sublist (List.filter_sublist _) (reach_pairwise hr)
  · intro e
    simp [listEntries, List.mem_filter]

theorem list_entries_c9_witness :
    List.Pairwise (fun a b : Entry => a.id < b.id)
      (listEntries db2 ⟨some 1, none⟩) ∧
    ∀ e : Entry, e ∈ listEntries db2 ⟨some 1, none⟩ ↔
      e ∈ db2 ∧ matchesFilter ⟨some 1, none⟩ e = true :=
  list_entries_c9 db2 ⟨some 1, none⟩ reach_db2

/-- Claim C10.  init_db is idempotent: after the first call the store never
changes again however often it is repeated, and all three tables exist. -/
theorem init_schema_c10 :
    ∀ (s : Store) (n : Nat), Nat.iterate init_db n (init_db s) = init_db s ∧
      (init_db s).hasUsers = true ∧ (init_db s).hasProjectCodes = true ∧
      (init_db s).hasTimesheets = true := by
  intro s n
  refine ⟨?_, rfl, rfl, rfl⟩
  induction n with
  | zero => rfl
  | succ k ih =>
    rw [Function.iterate_succ_apply', ih]
    simp [init_db]

end Timesheets
